import Mathlib

/-!
Verification development for the surf headless-browser core: the navigation
state machine, the history stack, the event dispatch pipeline, and the form
model. Go sources embedded here: `event/event.go` (Dispatcher),
`browser/events.go` (EventType, EventDispatcher), `browser/form.go`
(Form, serializeForm), and the browser core (Browser, httpRequest,
buildRequest, Back, Click, Forms, Open/Post and friends).

Modelling conventions: Go maps of header values and form values become
association lists preserving insertion order per key; machine pointers
become explicit `Option`; the external transport and HTML parser are a
parameter record; event handlers act on an abstract handler-state type and
return an optional error, mirroring the Go handler signature
`func(e *Event) error` (the spec forbids handlers from mutating the
session, so handler effects are confined to that state). Navigation
functions additionally return a list of `Action` values recording, in
program order, the observable effects the Go code performs (event
dispatches, transport calls, history pushes); this instrument is needed to
state the ordering and frame claims and mirrors exactly where the Go code
performs each effect.
-/

namespace Surf

/-- Errors of the surf error taxonomy (`errors` package) plus opaque
transport, parse and handler-raised errors. -/
inductive SurfError where
  | elementNotFound
  | attributeNotFound
  | invalidFormValue
  | pageNotLoaded
  | location
  | urlParse
  | transport
  | parse
  | handler (code : Nat)
deriving DecidableEq, Repr

/-! ## DOM model

The document parser is an external capability (goquery). We model a parsed
document as a tree of elements carrying a tag, an attribute list, direct
text content and children. `Find` over a CSS selector is modelled as a
predicate filter over the preorder (document-order) list of descendants. -/

/-- An element of a parsed document: tag, attributes, direct text, children. -/
inductive Elem where
  | node (tag : String) (attrs : List (String × String)) (txt : String)
      (children : List Elem)

/-- The tag of an element. -/
def Elem.tag : Elem → String
  | .node t _ _ _ => t

/-- The attribute list of an element. -/
def Elem.attrs : Elem → List (String × String)
  | .node _ a _ _ => a

/-- The children of an element. -/
def Elem.children : Elem → List Elem
  | .node _ _ _ cs => cs

/-- Attribute lookup (goquery `Attr`): first binding of the name, if any. -/
def Elem.attr (e : Elem) (name : String) : Option String :=
  (e.attrs.find? (fun p => p.1 == name)).map (fun p => p.2)

mutual
/-- All proper descendants of an element, in document (preorder) order.
goquery `Find` searches descendants of the selection, excluding the roots. -/
def Elem.descendants : Elem → List Elem
  | .node _ _ _ cs => descendantsList cs

/-- Preorder listing of a forest: each root followed by its descendants. -/
def descendantsList : List Elem → List Elem
  | [] => []
  | c :: cs => c :: (Elem.descendants c ++ descendantsList cs)
end

mutual
/-- The text of an element (goquery `Text`): its direct text followed by
the text of its children. -/
def Elem.text : Elem → String
  | .node _ _ s cs => s ++ textList cs

/-- Concatenated text of a forest. -/
def textList : List Elem → String
  | [] => ""
  | c :: cs => Elem.text c ++ textList cs
end

/-- `Find` over a selection rooted at one element: document-order
descendants matching the selector predicate. -/
def findIn (p : Elem → Bool) (e : Elem) : List Elem :=
  e.descendants.filter p

/-! ## URL model

`net/url` is external. A URL is modelled as a path part plus a raw query
string; parsing splits at the first question mark and never fails (the
claims under study do not exercise URL-parse failures). -/

/-- A URL: everything before the query, and the raw query string. -/
structure Url where
  path : String
  rawQuery : String
deriving DecidableEq, Repr

/-- Render a URL back to a string (`URL.String`). -/
def urlString (u : Url) : String :=
  if u.rawQuery == "" then u.path else u.path ++ "?" ++ u.rawQuery

/-- Split a character list at the first question mark, when one occurs. -/
def splitAtQuery : List Char → List Char × Option (List Char)
  | [] => ([], none)
  | c :: cs =>
    if c = '?' then ([], some cs)
    else
      let r := splitAtQuery cs
      (c :: r.1, r.2)

/-- Parse a URL string (`url.Parse`): split off the query part at the
first question mark. -/
def parseUrl (s : String) : Option Url :=
  let r := splitAtQuery s.data
  match r.2 with
  | none => some { path := String.mk r.1, rawQuery := "" }
  | some q => some { path := String.mk r.1, rawQuery := String.mk q }

/-- Whether the second string begins with the first. -/
def strHasPrefix (pre s : String) : Bool :=
  pre.data.isPrefixOf s.data

/-- Upper-casing (`strings.ToUpper`), character-wise. -/
def strToUpper (s : String) : String :=
  String.mk (s.data.map Char.toUpper)

/-- Modelled external capability: `URL.ResolveReference`. Absolute URLs
pass through unchanged; a relative URL is resolved by prefixing the base
path. The claims never depend on the arithmetic of resolution, only on the
same resolution being used at each call site. -/
def resolveRef (base u : Url) : Url :=
  if strHasPrefix "http://" u.path || strHasPrefix "https://" u.path then u
  else { u with path := base.path ++ u.path }

/-! ## Headers and values

`http.Header` and `url.Values` are maps from name to a list of values where
`Add` appends; both are modelled as flat association lists in insertion
order, which preserves the per-key value sequences. -/

/-- A header jar: name and value pairs in insertion order. -/
abbrev Header := List (String × String)

/-- `http.Header.Add`: append a value for the name. -/
def headerAdd (h : Header) (name value : String) : Header :=
  h ++ [(name, value)]

/-- Number of values stored for a name. -/
def headerCount (h : Header) (name : String) : Nat :=
  (h.filter (fun p => p.1 == name)).length

/-- Form values (`url.Values`): name and value pairs in insertion order. -/
abbrev Values := List (String × String)

/-- `url.Values.Add`: append a value for the name. -/
def Values.add (v : Values) (name value : String) : Values :=
  v ++ [(name, value)]

/-- `url.Values.Get`-style listing: all values for a name, in order. -/
def valuesGet (v : Values) (name : String) : List String :=
  (v.filter (fun p => p.1 == name)).map (fun p => p.2)

/-- `url.Values.Set`: replace all values of the name by the single value. -/
def valuesSet (v : Values) (name value : String) : Values :=
  v.filter (fun p => p.1 != name) ++ [(name, value)]

/-- Modelled external capability: `url.Values.Encode` rendered as the
ampersand-joined name=value pairs (escaping and key sorting are external
details no claim depends on). -/
def encodeValues (v : Values) : String :=
  String.intercalate "&" (v.map (fun p => p.1 ++ "=" ++ p.2))

/-! ## Event package dispatcher (`event/event.go`) -/

/-- Event kinds of the `event` package. -/
inductive EvKind where
  | preRequest
  | postRequest
  | click
  | submit
  | recordPlay
  | recordStop
  | recordReplay
deriving DecidableEq, Repr

/-- A handler bound into the `event` package dispatcher: receives the
event kind and its own state, returns the new state and an optional error
(`HandlerFunc`; sender and args are threaded through the state). -/
def EHandler (σ : Type) := EvKind → σ → σ × Option SurfError

/-- The dispatcher handler map (`HandlerMap`): per kind, the bound
handlers in registration order. -/
def HandlerMap (σ : Type) := EvKind → List (EHandler σ)

/-- A fresh dispatcher holds no handlers (`NewDispatcher`). -/
def emptyHandlerMap (σ : Type) : HandlerMap σ := fun _ => []

/-- `Dispatcher.On` and `Dispatcher.OnFunc`: append the handler to the
list bound to the kind. -/
def dispOn (d : HandlerMap σ) (k : EvKind) (h : EHandler σ) : HandlerMap σ :=
  fun k2 => if k2 = k then d k2 ++ [h] else d k2

/-- The loop body of `Dispatcher.Do`: run the handlers in order, stopping
with the first error. -/
def chainRun (k : EvKind) (hs : List (EHandler σ)) (s : σ) : σ × Option SurfError :=
  match hs with
  | [] => (s, none)
  | h :: rest =>
    match h k s with
    | (s2, none) => chainRun k rest s2
    | (s2, some e) => (s2, some e)

/-- `Dispatcher.Do`: run the handlers bound to the kind. -/
def dispDo (d : HandlerMap σ) (k : EvKind) (s : σ) : σ × Option SurfError :=
  chainRun k (d k) s

/-- Build a dispatcher from a sequence of `On` registrations. -/
def registerList (regs : List (EvKind × EHandler σ)) : HandlerMap σ :=
  regs.foldl (fun d p => dispOn d p.1 p.2) (emptyHandlerMap σ)

/-- Sequential success of a handler chain from a state: every handler,
run on the state left by its predecessors, returns no error. -/
def chainOk (k : EvKind) (hs : List (EHandler σ)) (s : σ) : Prop :=
  match hs with
  | [] => True
  | h :: rest => (h k s).2 = none ∧ chainOk k rest (h k s).1

/-! ## Browser core

Embeds the `Browser` type and its navigation pipeline. `jar.State` holds
the outgoing request, the response and the parsed document; the history
jar is a stack of such states. -/

/-- Browser event types (`browser/events.go`). -/
inductive EventType where
  | preRequestEvent
  | postRequestEvent
  | clickEvent
  | formSubmitEvent
deriving DecidableEq, Repr

/-- An outgoing request descriptor (`http.Request` as the browser uses it). -/
structure Request where
  method : String
  url : Url
  header : Header
  body : Option String
deriving DecidableEq, Repr

/-- A response descriptor (`http.Response` as the browser uses it). -/
structure Response where
  statusCode : Nat
  header : Header
  body : String
deriving DecidableEq, Repr

/-- `jar.State`: the immutable snapshot of one navigation. The zero value
`jar.State` of a fresh session has nil request, response and document,
modelled with `none`. -/
structure PageState where
  request : Option Request
  response : Option Response
  dom : Option Elem

/-- Arguments carried by a browser event (`Event.Args`). -/
inductive EventArgs where
  | req (r : Request)
  | resp (r : Response)
  | url (u : Url)
  | form (values : Values) (method : String) (action : Url)

/-- A handler bound into the browser `EventDispatcher`
(`EventHandler = func(e *Event) error`): sees the event type and args,
acts on the abstract handler state, returns an optional error. -/
def BHandler (σ : Type) := EventType → EventArgs → σ → σ × Option SurfError

/-- Boolean session policies (`AttributeMap`; a missing key reads false). -/
structure AttributeMap where
  sendReferer : Bool
  metaRefreshHandling : Bool
  followRedirects : Bool
deriving DecidableEq, Repr

/-- Authorization credentials (`Authorization`). -/
structure Authorization where
  username : String
  password : String
deriving DecidableEq, Repr

/-- The observable effects a navigation performs, in program order. -/
inductive Action where
  | dispatched (t : EventType)
  | fetched (r : Request)
  | pushed
deriving DecidableEq, Repr

/-- The external transport and document parser (consumed capabilities):
`fetch` is the HTTP client call, `parse` is `goquery.NewDocumentFromResponse`;
`none` is the respective failure. -/
structure Transport where
  fetch : Request → Option Response
  parse : Response → Option Elem

/-- The `Browser` type: current state, history stack (top first), header
jar, user agent, attributes, credentials, bound event handlers in
registration order, and the abstract handler state. The cookie jar,
bookmark jar, logger and refresh timer fields are omitted: no claim under
study observes them. -/
structure Browser (σ : Type) where
  state : PageState
  history : List PageState
  headers : Header
  userAgent : String
  attributes : AttributeMap
  auth : Authorization
  handlers : List (EventType × BHandler σ)
  hstate : σ

/-- The handlers bound to an event type, in registration order (the
`EventDispatcher` keeps a map of per-type slices; `On` appends). -/
def handlersFor (hs : List (EventType × BHandler σ)) (t : EventType) :
    List (BHandler σ) :=
  (hs.filter (fun p => p.1 == t)).map (fun p => p.2)

/-- The loop body of `EventDispatcher.Do`: run the handlers in order,
stopping with the first error. -/
def bchainRun (t : EventType) (a : EventArgs) (hs : List (BHandler σ)) (s : σ) :
    σ × Option SurfError :=
  match hs with
  | [] => (s, none)
  | h :: rest =>
    match h t a s with
    | (s2, none) => bchainRun t a rest s2
    | (s2, some e) => (s2, some e)

/-- `Browser.Do` composed with `EventDispatcher.Do`: dispatch an event to
the handlers bound to its type. Only the handler state changes. -/
def dispatchEvent (bow : Browser σ) (t : EventType) (a : EventArgs) :
    Browser σ × Option SurfError :=
  let r := bchainRun t a (handlersFor bow.handlers t) bow.hstate
  ({ bow with hstate := r.1 }, r.2)

/-- Modelled external primitive: `basicAuth` applies base64 to
user:password; the encoding is an external bijection no claim inspects,
kept as the raw pair. -/
def basicAuth (username password : String) : String :=
  username ++ ":" ++ password

/-- `Browser.Url`: the URL of the current state request. The Go code
dereferences the request pointer; on a fresh session that is a nil
dereference, modelled with a default empty URL. -/
def browserUrl (bow : Browser σ) : Url :=
  (bow.state.request.map (fun r => r.url)).getD { path := "", rawQuery := "" }

/-- `Browser.buildRequest`: create the outgoing request. The Go code
assigns `req.Header = bow.headers`, so the request header IS the session
header jar, and the `Add` calls below land in the session jar; the
returned browser carries the mutated jar. -/
def buildRequest (bow : Browser σ) (method : String) (u : Url) (ref : Option Url) :
    Browser σ × Request :=
  let h1 := headerAdd bow.headers "User-Agent" bow.userAgent
  let h2 :=
    match ref with
    | some r => if bow.attributes.sendReferer then headerAdd h1 "Referer" (urlString r) else h1
    | none => h1
  let h3 :=
    if bow.auth.username != "" then
      headerAdd h2 "Authorization" ("Basic " ++ basicAuth bow.auth.username bow.auth.password)
    else h2
  ({ bow with headers := h3 },
   { method := method, url := u, header := h3, body := none })

/-- `jar.NewHistoryState`: the snapshot created for a successful request. -/
def newHistoryState (req : Request) (resp : Response) (dom : Elem) : PageState :=
  { request := some req, response := some resp, dom := some dom }

/-- `Browser.httpRequest`: the navigation pipeline. Dispatch the
pre-request event (an error aborts before the transport call); fetch and
parse (an error aborts with no state change); push the old state and
install the new one; dispatch the post-request event (an error is
returned, but the state is already committed). The meta-refresh handling
only manipulates a background timer and is not modelled (real time). -/
def httpRequest (tr : Transport) (bow : Browser σ) (req : Request) :
    Browser σ × Option SurfError × List Action :=
  match dispatchEvent bow .preRequestEvent (.req req) with
  | (bow1, some e) => (bow1, some e, [.dispatched .preRequestEvent])
  | (bow1, none) =>
    match tr.fetch req with
    | none => (bow1, some .transport,
        [.dispatched .preRequestEvent, .fetched req])
    | some resp =>
      match tr.parse resp with
      | none => (bow1, some .parse,
          [.dispatched .preRequestEvent, .fetched req])
      | some dom =>
        let bow2 := { bow1 with
          history := bow1.state :: bow1.history,
          state := newHistoryState req resp dom }
        match dispatchEvent bow2 .postRequestEvent (.resp resp) with
        | (bow3, postErr) => (bow3, postErr,
            [.dispatched .preRequestEvent, .fetched req, .pushed,
             .dispatched .postRequestEvent])

/-- `Browser.httpGET`: build a GET request and send it. -/
def httpGET (tr : Transport) (bow : Browser σ) (u : Url) (ref : Option Url) :
    Browser σ × Option SurfError × List Action :=
  let br := buildRequest bow "GET" u ref
  httpRequest tr br.1 br.2

/-- `Browser.httpPOST`: build a POST request, attach the body and the
Content-Type header (through the aliased jar, as in the Go code), send. -/
def httpPOST (tr : Transport) (bow : Browser σ) (u : Url) (ref : Option Url)
    (contentType : String) (body : Option String) :
    Browser σ × Option SurfError × List Action :=
  let br := buildRequest bow "POST" u ref
  let h := headerAdd br.1.headers "Content-Type" contentType
  httpRequest tr { br.1 with headers := h }
    { br.2 with header := h, body := body }

/-- `Browser.Open`: parse the URL and GET it. -/
def browserOpen (tr : Transport) (bow : Browser σ) (u : String) :
    Browser σ × Option SurfError × List Action :=
  match parseUrl u with
  | none => (bow, some .urlParse, [])
  | some ur => httpGET tr bow ur none

/-- `Browser.OpenForm`: set the query string to the encoded values and GET. -/
def browserOpenForm (tr : Transport) (bow : Browser σ) (u : String) (data : Values) :
    Browser σ × Option SurfError × List Action :=
  match parseUrl u with
  | none => (bow, some .urlParse, [])
  | some ul =>
    browserOpen tr bow (urlString { ul with rawQuery := encodeValues data })

/-- `Browser.Post`: parse the URL and POST the body with the content type. -/
def browserPost (tr : Transport) (bow : Browser σ) (u : String)
    (contentType : String) (body : Option String) :
    Browser σ × Option SurfError × List Action :=
  match parseUrl u with
  | none => (bow, some .urlParse, [])
  | some ur => httpPOST tr bow ur none contentType body

/-- `Browser.PostForm`: POST the url-encoded values. -/
def browserPostForm (tr : Transport) (bow : Browser σ) (u : String) (data : Values) :
    Browser σ × Option SurfError × List Action :=
  browserPost tr bow u "application/x-www-form-urlencoded" (some (encodeValues data))

/-- `Browser.Back`: when more than one state is on the stack, pop the top
into the current state and report true; otherwise report false with no
change. The history jar itself (`jar.MemoryHistory`, not under src) is the
plain stack the spec describes: push prepends here since the top is kept
first, pop removes the top. -/
def browserBack (bow : Browser σ) : Browser σ × Bool :=
  if bow.history.length > 1 then
    match bow.history with
    | s :: rest => ({ bow with state := s, history := rest }, true)
    | [] => (bow, false)
  else (bow, false)

/-- Iterated `Back`, keeping only the browser. -/
def backIter (bow : Browser σ) : Nat → Browser σ
  | 0 => bow
  | k + 1 => (browserBack (backIter bow k)).1

/-- The current document (`bow.state.Dom`); a fresh session has none. -/
def browserDom (bow : Browser σ) : Option Elem := bow.state.dom

/-- `Browser.Find`: selector matches over the current document. -/
def browserFind (bow : Browser σ) (p : Elem → Bool) : List Elem :=
  match browserDom bow with
  | none => []
  | some d => findIn p d

/-- `Browser.Title`: concatenated text of the title elements. -/
def browserTitle (bow : Browser σ) : String :=
  String.join ((browserFind bow (fun e => e.tag == "title")).map Elem.text)

/-- `Browser.Body`: the first body element (the Go code serializes it to
markup; serialization is injective so the element itself stands for it). -/
def browserBody (bow : Browser σ) : Option Elem :=
  (browserFind bow (fun e => e.tag == "body")).head?

/-- `Browser.attrToResolvedUrl`: read the attribute from the first matched
element and resolve it against the page URL. -/
def attrToResolvedUrl (bow : Browser σ) (name : String) (sel : List Elem) :
    Except SurfError Url :=
  match sel.head? >>= (fun e => e.attr name) with
  | none => .error .attributeNotFound
  | some src =>
    match parseUrl src with
    | none => .error .urlParse
    | some ur => .ok (resolveRef (browserUrl bow) ur)

/-- `Browser.Click`: the selector must match at least one element and an
anchor; the href is resolved; the click event is dispatched with its
result DISCARDED (`bow.doClick(href)` on a statement of its own); then the
GET is issued with the page URL as referer. -/
def browserClick (tr : Transport) (bow : Browser σ) (p : Elem → Bool) :
    Browser σ × Option SurfError × List Action :=
  let sel := browserFind bow p
  if sel.length = 0 then (bow, some .elementNotFound, [])
  else if (sel.any (fun e => e.tag == "a")) = false then (bow, some .elementNotFound, [])
  else
    match attrToResolvedUrl bow "href" sel with
    | .error e => (bow, some e, [])
    | .ok href =>
      let d := dispatchEvent bow .clickEvent (.url href)
      let r := httpGET tr d.1 href (some (browserUrl bow))
      (r.1, r.2.1, .dispatched .clickEvent :: r.2.2)

/-- Modelled from the spec: session construction (`surf.NewBrowser`, not
under src/). A fresh session has no page loaded and an empty history
(spec 4.5: the only states are history-empty and page-loaded), an empty
header jar, empty credentials and no bound handlers. -/
def initBrowser (s : σ) : Browser σ :=
  { state := { request := none, response := none, dom := none },
    history := [],
    headers := [],
    userAgent := "",
    attributes :=
      { sendReferer := false, metaRefreshHandling := false, followRedirects := true },
    auth := { username := "", password := "" },
    handlers := [],
    hstate := s }

/-! ## Form model (`browser/form.go`) -/

/-- One step of the `input,button` pass of `serializeForm`: a named,
typed element is classified as submit button, radio/checkbox field, or
plain field; an element without a name or without a type attribute leaves
the accumulator unchanged. -/
def inputStep (acc : List String × Values × Values) (s : Elem) :
    List String × Values × Values :=
  match s.attr "name" with
  | none => acc
  | some name =>
    match s.attr "type" with
    | none => acc
    | some typ =>
      if typ == "submit" then
        (acc.1, acc.2.1, Values.add acc.2.2 name ((s.attr "value").getD ""))
      else if typ == "radio" || typ == "checkbox" then
        match s.attr "checked" with
        | some _ =>
          match s.attr "value" with
          | some v => (acc.1 ++ [name], Values.add acc.2.1 name v, acc.2.2)
          | none => (acc.1 ++ [name], acc.2.1, acc.2.2)
        | none => (acc.1 ++ [name], acc.2.1, acc.2.2)
      else
        match s.attr "value" with
        | some v => (acc.1 ++ [name], Values.add acc.2.1 name v, acc.2.2)
        | none => (acc.1 ++ [name], acc.2.1, acc.2.2)

/-- One step of the `select` pass of `serializeForm`: a named select
becomes a defined field; each selected option with a value attribute
contributes a field value. -/
def selectStep (acc : List String × Values × Values) (s : Elem) :
    List String × Values × Values :=
  match s.attr "name" with
  | none => acc
  | some name =>
    let opts := findIn (fun o => o.tag == "option" && (o.attr "selected").isSome) s
    (acc.1 ++ [name],
     opts.foldl (fun f o =>
       match o.attr "value" with
       | some v => Values.add f name v
       | none => f) acc.2.1,
     acc.2.2)

/-- One step of the `textarea` pass of `serializeForm`: a named textarea
becomes a defined field holding its text content. -/
def textareaStep (acc : List String × Values × Values) (s : Elem) :
    List String × Values × Values :=
  match s.attr "name" with
  | none => acc
  | some name => (acc.1 ++ [name], Values.add acc.2.1 name s.text, acc.2.2)

/-- `serializeForm`: three passes over the fragment, in the source order:
`Find("input,button")`, then `Find("select")`, then `Find("textarea")`,
returning the defined field names, the field values and the button values. -/
def serializeForm (sel : Elem) : List String × Values × Values :=
  let acc1 := (findIn (fun e => e.tag == "input" || e.tag == "button") sel).foldl
    inputStep ([], [], [])
  let acc2 := (findIn (fun e => e.tag == "select") sel).foldl selectStep acc1
  (findIn (fun e => e.tag == "textarea") sel).foldl textareaStep acc2

/-- `formAttributes`: method (upper-cased, default GET) and absolute
action URL (default: current page URL), resolved against the page base. -/
def formAttributes (bow : Browser σ) (s : Elem) : String × String :=
  let method := (s.attr "method").getD "GET"
  let action := (s.attr "action").getD (urlString (browserUrl bow))
  match parseUrl action with
  | none => ("", "")
  | some aurl => (strToUpper method, urlString (resolveRef (browserUrl bow) aurl))

/-- The `Form` type minus its browser back-reference (the browser is
passed explicitly to the submission functions below). -/
structure FormData where
  selection : Elem
  method : String
  action : String
  definedFields : List String
  fields : Values
  buttons : Values

/-- `NewForm`: derive the form data from the fragment. -/
def newForm (bow : Browser σ) (s : Elem) : FormData :=
  let ser := serializeForm s
  let ma := formAttributes bow s
  { selection := s, method := ma.1, action := ma.2,
    definedFields := ser.1, fields := ser.2.1, buttons := ser.2.2 }

/-- `Browser.Forms`: nil when the page has no form; otherwise a slice
allocated with the form count as its LENGTH (not capacity) into which the
forms are appended, leaving a nil prefix (`make([]Submittable, len)`
followed by `append`). -/
def browserForms (bow : Browser σ) : List (Option FormData) :=
  let sel := browserFind bow (fun e => e.tag == "form")
  let n := sel.length
  if n = 0 then []
  else List.replicate n none ++ sel.map (fun s => some (newForm bow s))

/-- `Form.send`: re-read method (default GET) and action (default: page
URL) from the fragment, resolve the action, copy the field values, set the
button pair when a button name is given, then issue a GET with the values
as the query string or a POST with the values as the url-encoded body.
No event is dispatched here. -/
def formSend (tr : Transport) (bow : Browser σ) (f : FormData)
    (buttonName buttonValue : String) :
    Browser σ × Option SurfError × List Action :=
  let method := (f.selection.attr "method").getD "GET"
  let action := (f.selection.attr "action").getD (urlString (browserUrl bow))
  match parseUrl action with
  | none => (bow, some .urlParse, [])
  | some aurl0 =>
    let aurl := resolveRef (browserUrl bow) aurl0
    let values := if buttonName != "" then valuesSet f.fields buttonName buttonValue
      else f.fields
    if strToUpper method == "GET" then
      browserOpenForm tr bow (urlString aurl) values
    else
      browserPostForm tr bow (urlString aurl) values

/-- `Form.Click`: fails with InvalidFormValue for an unknown button name;
otherwise sends with that button name and its first recorded value. -/
def formClick (tr : Transport) (bow : Browser σ) (f : FormData) (button : String) :
    Browser σ × Option SurfError × List Action :=
  match valuesGet f.buttons button with
  | [] => (bow, some .invalidFormValue, [])
  | v :: _ => formSend tr bow f button v

/-- `Form.Submit`: click some recorded button when one exists (the Go code
ranges over a map, an unspecified choice the spec acknowledges; modelled
as the first recorded button), otherwise send without a button. -/
def formSubmit (tr : Transport) (bow : Browser σ) (f : FormData) :
    Browser σ × Option SurfError × List Action :=
  match f.buttons with
  | [] => formSend tr bow f "" ""
  | (name, _) :: _ => formClick tr bow f name

/-! ## Reference rendering of claim C3

`claimSerializeForm` follows the words of the claim: every named input,
button, select or textarea descendant is recorded in one document-order
pass, submit-typed elements as buttons, radio/checkbox inputs as defined
fields with value only under a checked attribute, everything else as a
defined field with its current value (empty default). -/

/-- One document-order step of the claim reading of form serialization. -/
def claimFormStep (acc : List String × Values × Values) (s : Elem) :
    List String × Values × Values :=
  if s.tag == "input" || s.tag == "button" || s.tag == "select" || s.tag == "textarea" then
    match s.attr "name" with
    | none => acc
    | some name =>
      if s.attr "type" == some "submit" then
        (acc.1, acc.2.1, Values.add acc.2.2 name ((s.attr "value").getD ""))
      else if s.tag == "input" &&
          (s.attr "type" == some "radio" || s.attr "type" == some "checkbox") then
        if (s.attr "checked").isSome then
          (acc.1 ++ [name], Values.add acc.2.1 name ((s.attr "value").getD ""), acc.2.2)
        else (acc.1 ++ [name], acc.2.1, acc.2.2)
      else if s.tag == "select" then
        let opts := findIn (fun o => o.tag == "option" && (o.attr "selected").isSome) s
        (acc.1 ++ [name],
         opts.foldl (fun f o => Values.add f name ((o.attr "value").getD "")) acc.2.1,
         acc.2.2)
      else if s.tag == "textarea" then
        (acc.1 ++ [name], Values.add acc.2.1 name s.text, acc.2.2)
      else
        (acc.1 ++ [name], Values.add acc.2.1 name ((s.attr "value").getD ""), acc.2.2)
  else acc

/-- The claim C3 reading of form serialization: a single pass over all
descendants in document order. -/
def claimSerializeForm (sel : Elem) : List String × Values × Values :=
  (Elem.descendants sel).foldl claimFormStep ([], [], [])

/-! ## Amended characterization of `serializeForm` (for claim C3)

Per-element contribution functions, stated independently of the
accumulator threading, used to characterize what `serializeForm` records. -/

/-- Defined-field contribution of one input/button element: its name when
it has both a name and a type attribute and the type is not submit. -/
def ibDefined (s : Elem) : List String :=
  match s.attr "name", s.attr "type" with
  | some name, some typ => if typ == "submit" then [] else [name]
  | _, _ => []

/-- Field-value contribution of one input/button element: present only
with name, type and value attributes, the type not submit, and, for
radio/checkbox, a checked attribute. -/
def ibFields (s : Elem) : Values :=
  match s.attr "name", s.attr "type" with
  | some name, some typ =>
    if typ == "submit" then []
    else if (typ == "radio" || typ == "checkbox") && !(s.attr "checked").isSome then []
    else
      match s.attr "value" with
      | some v => [(name, v)]
      | none => []
  | _, _ => []

/-- Button contribution of one input/button element: its name with the
value attribute (empty default) when typed submit. -/
def ibButtons (s : Elem) : Values :=
  match s.attr "name", s.attr "type" with
  | some name, some typ =>
    if typ == "submit" then [(name, (s.attr "value").getD "")] else []
  | _, _ => []

/-- Defined-field contribution of one select element: its name, when named. -/
def selDefined (s : Elem) : List String :=
  match s.attr "name" with
  | some name => [name]
  | none => []

/-- Field-value contribution of one select element: one value per selected
option carrying a value attribute. -/
def selFields (s : Elem) : Values :=
  match s.attr "name" with
  | none => []
  | some name =>
    (findIn (fun o => o.tag == "option" && (o.attr "selected").isSome) s).filterMap
      (fun o => (o.attr "value").map (fun v => (name, v)))

/-- Defined-field contribution of one textarea element: its name, when named. -/
def taDefined (s : Elem) : List String :=
  match s.attr "name" with
  | some name => [name]
  | none => []

/-- Field-value contribution of one textarea element: its text content. -/
def taFields (s : Elem) : Values :=
  match s.attr "name" with
  | none => []
  | some name => [(name, s.text)]

/-- The amended claim C3 reading: input/button entries first (in document
order, only elements carrying both name and type attributes), then the
named selects, then the named textareas; values present only when the
respective value attribute (or, for textareas, the text content) supplies
one. -/
def amendedSerializeForm (sel : Elem) : List String × Values × Values :=
  let ibs := findIn (fun e => e.tag == "input" || e.tag == "button") sel
  let sels := findIn (fun e => e.tag == "select") sel
  let tas := findIn (fun e => e.tag == "textarea") sel
  (ibs.flatMap ibDefined ++ sels.flatMap selDefined ++ tas.flatMap taDefined,
   ibs.flatMap ibFields ++ sels.flatMap selFields ++ tas.flatMap taFields,
   ibs.flatMap ibButtons)

/-! ## Navigation chains (for the history and back-navigation claims) -/

/-- A successful navigation from one session to the next: some request,
issued by `httpRequest` from the session with a possibly updated header
jar (request construction mutates only the header jar), completing with
no error. Open, OpenForm, Post, PostForm, Click and Reload all bottom out
in `httpRequest` after header-jar-only preprocessing, so each successful
call of any of them is such a step. -/
def NavSucc (tr : Transport) (b b2 : Browser σ) : Prop :=
  ∃ hdr req tra, httpRequest tr { b with headers := hdr } req = (b2, none, tra)

/-- The expected history after a chain of navigations: the states of the
earlier sessions, most recent first. -/
def histList (bs : Nat → Browser σ) (i : Nat) : List PageState :=
  (List.range i).reverse.map (fun j => (bs j).state)

/-! ## Concrete fixtures used by witnesses and counterexamples -/

/-- A fixed successful response. -/
def respDemo : Response := { statusCode := 200, header := [], body := "ok" }

/-- A fixed parsed page with a title and a body. -/
def pageDemo : Elem :=
  Elem.node "html" [] "" [
    Elem.node "head" [] "" [Elem.node "title" [] "Surf Page 1" []],
    Elem.node "body" [] "Hello, Surf!" []]

/-- A transport on which every fetch and parse succeeds. -/
def tr0 : Transport := { fetch := fun _ => some respDemo, parse := fun _ => some pageDemo }

/-- A fixed page URL. -/
def u0 : Url := { path := "http://h/", rawQuery := "" }

/-- A fixed outgoing request. -/
def reqDemo : Request := { method := "GET", url := u0, header := [], body := none }

/-- A session with a loaded page and no handlers. -/
def demoLoaded : Browser Unit :=
  { initBrowser () with
      state := { request := some reqDemo, response := some respDemo, dom := some pageDemo } }

/-- A GET form with one named, typed text input. -/
def formElemDemo : Elem :=
  Elem.node "form" [("method", "GET"), ("action", "http://h/s")] "" [
    Elem.node "input" [("name", "q"), ("type", "text"), ("value", "1")] "" []]

/-- The form data derived from `formElemDemo`. -/
def formDemo : FormData := newForm demoLoaded formElemDemo

/-- A fragment on which the one-pass document-order reading of form
serialization disagrees with the code: a textarea first, then a named
input without a type attribute, then a named typed input. -/
def frag3 : Elem :=
  Elem.node "form" [] "" [
    Elem.node "textarea" [("name", "t")] "T" [],
    Elem.node "input" [("name", "q")] "" [],
    Elem.node "input" [("name", "a"), ("type", "text"), ("value", "v")] "" []]

/-- A dispatcher handler that logs its index and optionally fails. -/
def logHandler (i : Nat) (fail : Bool) : EHandler (List Nat) :=
  fun _ s => (s ++ [i], if fail then some (.handler i) else none)

/-- A registration sequence with three click handlers, the second of
which fails, and one handler of another kind. -/
def demoRegs : List (EvKind × EHandler (List Nat)) :=
  [(.click, logHandler 1 false), (.preRequest, logHandler 9 false),
   (.click, logHandler 2 true), (.click, logHandler 3 false)]

/-- A concrete chain of successful navigations on `tr0`. -/
def wbs : Nat → Browser Unit
  | 0 => initBrowser ()
  | i + 1 => (httpGET tr0 (wbs i) u0 none).1

/-- A page holding one anchor with an href. -/
def pageClick : Elem :=
  Elem.node "html" [] "" [
    Elem.node "body" [] "" [Elem.node "a" [("href", "http://h/page2")] "click" []]]

/-- A session on `pageClick` whose click handler always fails. -/
def clickBow : Browser Unit :=
  { initBrowser () with
      state := { request := some reqDemo, response := some respDemo, dom := some pageClick },
      handlers := [(EventType.clickEvent, fun _ _ s => (s, some (SurfError.handler 7)))] }

/-- The anchor selector used in the click fixture. -/
def clickSel : Elem → Bool := fun el => el.tag == "a"

/-- A session whose pre-request handler always fails. -/
def preFailBow : Browser Unit :=
  { initBrowser () with
      handlers := [(EventType.preRequestEvent, fun _ _ s => (s, some (SurfError.handler 1)))] }

/-- A session whose post-request handler always fails. -/
def postFailBow : Browser Unit :=
  { initBrowser () with
      handlers := [(EventType.postRequestEvent, fun _ _ s => (s, some (SurfError.handler 2)))] }

/-- A page holding exactly one form element. -/
def pageWithForm : Elem :=
  Elem.node "html" [] "" [Elem.node "body" [] "" [Elem.node "form" [] "" []]]

/-- A session loaded on `pageWithForm`. -/
def demoFormsBow : Browser Unit :=
  { initBrowser () with
      state := { request := some reqDemo, response := some respDemo, dom := some pageWithForm } }

/-- Iterated GET navigation to a fixed URL (used for the header
accumulation claim). -/
def navKIter (tr : Transport) (u : Url) (bow : Browser σ) : Nat → Browser σ
  | 0 => bow
  | k + 1 => (httpGET tr (navKIter tr u bow k) u none).1

/-! ## Pipeline lemmas -/

/-- When the pre-request dispatch fails, `httpRequest` returns exactly
that error right away: no fetch, no push, no post dispatch. -/
theorem httpRequest_pre_error (tr : Transport) (bow bow1 : Browser σ) (req : Request)
    (e : SurfError)
    (h : dispatchEvent bow .preRequestEvent (.req req) = (bow1, some e)) :
    httpRequest tr bow req = (bow1, some e, [.dispatched .preRequestEvent]) := by
  unfold httpRequest
  rw [h]

/-- When pre-request dispatch, fetch and parse all succeed, `httpRequest`
commits the new state over the pushed old one and ends with the
post-request dispatch. -/
theorem httpRequest_success (tr : Transport) (bow bow1 : Browser σ) (req : Request)
    (resp : Response) (dom : Elem)
    (hpre : dispatchEvent bow .preRequestEvent (.req req) = (bow1, none))
    (hf : tr.fetch req = some resp)
    (hp : tr.parse resp = some dom) :
    httpRequest tr bow req
      = ((dispatchEvent
            { bow1 with
                history := bow1.state :: bow1.history,
                state := newHistoryState req resp dom }
            .postRequestEvent (.resp resp)).1,
         (dispatchEvent
            { bow1 with
                history := bow1.state :: bow1.history,
                state := newHistoryState req resp dom }
            .postRequestEvent (.resp resp)).2,
         [.dispatched .preRequestEvent, .fetched req, .pushed,
          .dispatched .postRequestEvent]) := by
  unfold httpRequest
  rw [hpre]
  dsimp only
  rw [hf]
  dsimp only
  rw [hp]

/-! ## Claim theorems: the request pipeline -/

/-- Claim C5 (confirmed): a pre-request handler error makes the
navigation return that error with no transport call, no push, and the
current state and history unchanged. -/
theorem preRequest_error_blocks_navigation (tr : Transport) (bow : Browser σ)
    (req : Request) (e : SurfError)
    (h : (dispatchEvent bow .preRequestEvent (.req req)).2 = some e) :
    (httpRequest tr bow req).2.1 = some e ∧
    (httpRequest tr bow req).1.state = bow.state ∧
    (httpRequest tr bow req).1.history = bow.history ∧
    (∀ r, Action.fetched r ∉ (httpRequest tr bow req).2.2) ∧
    Action.pushed ∉ (httpRequest tr bow req).2.2 := by
  have hde : dispatchEvent bow .preRequestEvent (.req req)
      = ((dispatchEvent bow .preRequestEvent (.req req)).1, some e) := by
    rw [← h]
  rw [httpRequest_pre_error tr bow _ req e hde]
  refine ⟨rfl, rfl, rfl, ?_, ?_⟩ <;> simp

/-- Witness for claim C5: a concrete session whose pre-request handler
fails; the navigation reports that failure and touches nothing. -/
theorem preRequest_error_blocks_navigation_witness :
    (httpRequest tr0 preFailBow reqDemo).2.1 = some (SurfError.handler 1) ∧
    (httpRequest tr0 preFailBow reqDemo).1.state = preFailBow.state ∧
    (httpRequest tr0 preFailBow reqDemo).1.history = preFailBow.history ∧
    (∀ r, Action.fetched r ∉ (httpRequest tr0 preFailBow reqDemo).2.2) ∧
    Action.pushed ∉ (httpRequest tr0 preFailBow reqDemo).2.2 :=
  preRequest_error_blocks_navigation tr0 preFailBow reqDemo (SurfError.handler 1) rfl

/-- Claim C6 (confirmed): when fetch and parse succeed and a post-request
handler then fails, the error is returned, but the new state is already
committed: the push happened and the current state is the new state. -/
theorem postRequest_error_after_commit (tr : Transport) (bow : Browser σ)
    (req : Request) (resp : Response) (dom : Elem) (e : SurfError)
    (hpre : (dispatchEvent bow .preRequestEvent (.req req)).2 = none)
    (hf : tr.fetch req = some resp)
    (hp : tr.parse resp = some dom)
    (hpost : (dispatchEvent
        { (dispatchEvent bow .preRequestEvent (.req req)).1 with
            history := bow.state :: bow.history,
            state := newHistoryState req resp dom }
        .postRequestEvent (.resp resp)).2 = some e) :
    (httpRequest tr bow req).2.1 = some e ∧
    (httpRequest tr bow req).1.state = newHistoryState req resp dom ∧
    (httpRequest tr bow req).1.history = bow.state :: bow.history ∧
    Action.pushed ∈ (httpRequest tr bow req).2.2 := by
  have hde : dispatchEvent bow .preRequestEvent (.req req)
      = ((dispatchEvent bow .preRequestEvent (.req req)).1, none) := by
    rw [← hpre]
  rw [httpRequest_success tr bow _ req resp dom hde hf hp]
  exact ⟨hpost, rfl, rfl, by simp⟩

/-- Witness for claim C6: a concrete session whose post-request handler
fails; the error is returned while the new page is installed and the old
state pushed. -/
theorem postRequest_error_after_commit_witness :
    (httpRequest tr0 postFailBow reqDemo).2.1 = some (SurfError.handler 2) ∧
    (httpRequest tr0 postFailBow reqDemo).1.state
      = newHistoryState reqDemo respDemo pageDemo ∧
    (httpRequest tr0 postFailBow reqDemo).1.history
      = postFailBow.state :: postFailBow.history ∧
    Action.pushed ∈ (httpRequest tr0 postFailBow reqDemo).2.2 :=
  postRequest_error_after_commit tr0 postFailBow reqDemo respDemo pageDemo
    (SurfError.handler 2) rfl rfl rfl rfl

/-- Claim C1, counterexample: after one successful navigation from a
fresh session, the history is non-empty and its top element is NOT the
current state (the code pushes the old state before installing the new
one, so the top is the pre-navigation state). -/
theorem history_top_not_current :
    (browserOpen tr0 (initBrowser ()) "http://h/").1.history ≠ [] ∧
    ¬((browserOpen tr0 (initBrowser ()) "http://h/").1.history.head?
        = some (browserOpen tr0 (initBrowser ()) "http://h/").1.state) := by
  constructor
  · intro h
    exact absurd (congrArg List.length h) (by decide)
  · intro h
    exact absurd (congrArg (fun o => Option.map (fun s => s.request) o) h) (by decide)

/-- Claim C1, amended (when the commit happens, the top of history is the
state that was current immediately before the navigation, while the newly
created state is held outside the stack as current). -/
theorem history_top_is_previous_state (tr : Transport) (bow : Browser σ)
    (req : Request) (resp : Response) (dom : Elem)
    (hpre : (dispatchEvent bow .preRequestEvent (.req req)).2 = none)
    (hf : tr.fetch req = some resp)
    (hp : tr.parse resp = some dom) :
    (httpRequest tr bow req).1.history.head? = some bow.state ∧
    (httpRequest tr bow req).1.state = newHistoryState req resp dom := by
  have hde : dispatchEvent bow .preRequestEvent (.req req)
      = ((dispatchEvent bow .preRequestEvent (.req req)).1, none) := by
    rw [← hpre]
  rw [httpRequest_success tr bow _ req resp dom hde hf hp]
  exact ⟨rfl, rfl⟩

/-- Witness for the amended claim C1 at a concrete navigation. -/
theorem history_top_is_previous_state_witness :
    (httpRequest tr0 (initBrowser ()) reqDemo).1.history.head?
      = some (initBrowser ()).state ∧
    (httpRequest tr0 (initBrowser ()) reqDemo).1.state
      = newHistoryState reqDemo respDemo pageDemo :=
  history_top_is_previous_state tr0 (initBrowser ()) reqDemo respDemo pageDemo rfl rfl rfl

/-- Claim C2 (code bug): submitting a concrete GET form issues the
request with the values as the query string, but dispatches NO form-submit
event beforehand: the trace holds only the pre-request dispatch, the
fetch, the push and the post-request dispatch, although the
FormSubmitEvent kind is documented to fire prior to submitting a form. -/
theorem submit_issues_request_without_event :
    Action.dispatched EventType.formSubmitEvent ∉ (formSubmit tr0 demoLoaded formDemo).2.2 ∧
    (formSubmit tr0 demoLoaded formDemo).2.2 =
      [Action.dispatched .preRequestEvent,
       Action.fetched { method := "GET", url := { path := "http://h/s", rawQuery := "q=1" },
                        header := [("User-Agent", "")], body := none },
       Action.pushed, Action.dispatched .postRequestEvent] ∧
    (formSubmit tr0 demoLoaded formDemo).2.1 = none :=
  ⟨by decide, by decide, by decide⟩

/-! ## Dispatcher lemmas (claim C4) -/

/-- Folding `On` registrations over a dispatcher appends, per kind,
exactly the handlers registered for that kind, in registration order. -/
theorem registerFold_app (regs : List (EvKind × EHandler σ)) (d : HandlerMap σ)
    (k : EvKind) :
    (regs.foldl (fun d2 p => dispOn d2 p.1 p.2) d) k
      = d k ++ (regs.filter (fun p => p.1 == k)).map Prod.snd := by
  induction regs generalizing d with
  | nil => simp
  | cons p rest ih =>
    simp only [List.foldl_cons, List.filter_cons, ih]
    by_cases hpk : p.1 = k
    · simp [dispOn, hpk]
    · have hb : (p.1 == k) = false := by simp [hpk]
      have hkp : ¬k = p.1 := fun h => hpk h.symm
      simp [dispOn, hb, hkp]

/-- `Dispatcher.Do` on a dispatcher built by a registration sequence runs
exactly the handlers registered for the kind, in registration order. -/
theorem dispDo_registerList (regs : List (EvKind × EHandler σ)) (k : EvKind) (s : σ) :
    dispDo (registerList regs) k s
      = chainRun k ((regs.filter (fun p => p.1 == k)).map Prod.snd) s := by
  unfold dispDo registerList
  rw [registerFold_app]
  simp [emptyHandlerMap]

/-- Running a chain whose front segment all succeeds continues with the
rest from the accumulated state. -/
theorem chainRun_ok_append (k : EvKind) (gs hs : List (EHandler σ)) (s : σ)
    (h : chainOk k gs s) :
    chainRun k (gs ++ hs) s = chainRun k hs (chainRun k gs s).1 := by
  induction gs generalizing s with
  | nil => simp [chainRun]
  | cons g rest ih =>
    obtain ⟨h1, h2⟩ := h
    rcases hg : g k s with ⟨s2, e⟩
    rw [hg] at h1 h2
    simp only at h1
    subst h1
    simp only [List.cons_append, chainRun, hg]
    exact ih s2 h2

/-- A chain returns success exactly when every handler, run in order on
the accumulated state, succeeds. -/
theorem chainRun_none_iff (k : EvKind) (hs : List (EHandler σ)) (s : σ) :
    (chainRun k hs s).2 = none ↔ chainOk k hs s := by
  induction hs generalizing s with
  | nil => simp [chainRun, chainOk]
  | cons h rest ih =>
    simp only [chainRun, chainOk]
    rcases hh : h k s with ⟨s2, e⟩
    cases e <;> simp [ih]

/-- Fail-fast: when the handlers before some failing handler all succeed,
the chain result is the state and error of that failing handler; the
handlers after it are not consulted. -/
theorem chainRun_fail (k : EvKind) (gs : List (EHandler σ)) (bad : EHandler σ)
    (rest : List (EHandler σ)) (s : σ) (e : SurfError)
    (hok : chainOk k gs s)
    (hbad : (bad k (chainRun k gs s).1).2 = some e) :
    chainRun k (gs ++ bad :: rest) s = ((bad k (chainRun k gs s).1).1, some e) := by
  rw [chainRun_ok_append k gs (bad :: rest) s hok]
  rcases hb : bad k (chainRun k gs s).1 with ⟨s2, e2⟩
  rw [hb] at hbad
  simp only at hbad
  subst hbad
  simp [chainRun, hb]

/-- Claim C4 (confirmed): dispatching runs exactly the handlers
registered for the event kind, in registration order; the result is
success exactly when each of them succeeds in sequence; and when a prefix
succeeds and the next handler fails, dispatch returns that failure and
the remaining handlers are not consulted. -/
theorem dispatch_exact_ordered_failfast (regs : List (EvKind × EHandler σ))
    (k : EvKind) (s : σ) :
    dispDo (registerList regs) k s
        = chainRun k ((regs.filter (fun p => p.1 == k)).map Prod.snd) s
    ∧ ((dispDo (registerList regs) k s).2 = none
        ↔ chainOk k ((regs.filter (fun p => p.1 == k)).map Prod.snd) s)
    ∧ ∀ gs bad rest e,
        (regs.filter (fun p => p.1 == k)).map Prod.snd = gs ++ bad :: rest →
        chainOk k gs s →
        (bad k (chainRun k gs s).1).2 = some e →
        dispDo (registerList regs) k s = ((bad k (chainRun k gs s).1).1, some e) := by
  refine ⟨dispDo_registerList regs k s, ?_, ?_⟩
  · rw [dispDo_registerList regs k s]
    exact chainRun_none_iff k _ s
  · intro gs bad rest e hsplit hok hbad
    rw [dispDo_registerList regs k s, hsplit]
    exact chainRun_fail k gs bad rest s e hok hbad

/-- Witness for claim C4: three click handlers, the second failing; the
first two run in order (the log reads 1 then 2), the third does not, and
dispatch returns the failure of the second. -/
theorem dispatch_exact_ordered_failfast_witness :
    dispDo (registerList demoRegs) EvKind.click ([] : List Nat)
      = ([1, 2], some (SurfError.handler 2)) := by
  have h := (dispatch_exact_ordered_failfast demoRegs EvKind.click ([] : List Nat)).2.2
    [logHandler 1 false] (logHandler 2 true) [logHandler 3 false] (SurfError.handler 2)
    rfl ⟨rfl, trivial⟩ rfl
  exact h.trans rfl

/-! ## Form serialization lemmas (claim C3) -/

/-- The input/button pass step appends exactly the per-element
contributions. -/
theorem inputStep_eq (acc : List String × Values × Values) (s : Elem) :
    inputStep acc s = (acc.1 ++ ibDefined s, acc.2.1 ++ ibFields s, acc.2.2 ++ ibButtons s) := by
  rcases acc with ⟨df, fv, bv⟩
  unfold inputStep ibDefined ibFields ibButtons
  rcases hn : s.attr "name" with _ | name
  · simp [hn]
  rcases ht : s.attr "type" with _ | typ
  · simp [hn, ht]
  by_cases h1 : (typ == "submit") = true
  · rcases hv : s.attr "value" with _ | v <;> simp [hn, ht, hv, h1, Values.add]
  by_cases h2 : (typ == "radio" || typ == "checkbox") = true
  · rcases hc : s.attr "checked" with _ | chk <;>
      rcases hv : s.attr "value" with _ | v <;>
        simp [hn, ht, hc, hv, h1, h2, Values.add]
  · rcases hv : s.attr "value" with _ | v <;>
      simp [hn, ht, hv, h1, h2, Values.add]

/-- The option-collecting inner fold of the select pass appends the
values of the selected options that carry a value attribute. -/
theorem foldl_add_filterMap (name : String) (opts : List Elem) (acc : Values) :
    opts.foldl (fun f o =>
      match o.attr "value" with
      | some v => Values.add f name v
      | none => f) acc
    = acc ++ opts.filterMap (fun o => (o.attr "value").map (fun v => (name, v))) := by
  induction opts generalizing acc with
  | nil => simp
  | cons o rest ih =>
    rcases hv : o.attr "value" with _ | v
    · simp only [List.foldl_cons, hv]
      rw [ih]
      simp [List.filterMap_cons, hv]
    · simp only [List.foldl_cons, hv]
      rw [ih]
      simp [List.filterMap_cons, hv, Values.add]

/-- The select pass step appends exactly the per-element contributions. -/
theorem selectStep_eq (acc : List String × Values × Values) (s : Elem) :
    selectStep acc s = (acc.1 ++ selDefined s, acc.2.1 ++ selFields s, acc.2.2 ++ []) := by
  rcases acc with ⟨df, fv, bv⟩
  unfold selectStep selDefined selFields
  rcases hn : s.attr "name" with _ | name <;>
    simp [hn, foldl_add_filterMap]

/-- The textarea pass step appends exactly the per-element contributions. -/
theorem textareaStep_eq (acc : List String × Values × Values) (s : Elem) :
    textareaStep acc s = (acc.1 ++ taDefined s, acc.2.1 ++ taFields s, acc.2.2 ++ []) := by
  rcases acc with ⟨df, fv, bv⟩
  unfold textareaStep taDefined taFields
  rcases hn : s.attr "name" with _ | name <;> simp [hn, Values.add]

/-- A fold whose step appends fixed per-element contributions computes the
concatenated contributions. -/
theorem foldl_triple (step : List String × Values × Values → Elem → List String × Values × Values)
    (d : Elem → List String) (f b : Elem → Values)
    (hstep : ∀ acc s, step acc s = (acc.1 ++ d s, acc.2.1 ++ f s, acc.2.2 ++ b s)) :
    ∀ (l : List Elem) (acc : List String × Values × Values),
      l.foldl step acc = (acc.1 ++ l.flatMap d, acc.2.1 ++ l.flatMap f, acc.2.2 ++ l.flatMap b) := by
  intro l
  induction l with
  | nil => intro acc; simp
  | cons s rest ih =>
    intro acc
    rw [List.foldl_cons, hstep, ih]
    simp [List.flatMap_cons]

/-- Claim C3, counterexample: on a fragment holding a textarea, then a
named input WITHOUT a type attribute, then a named typed input, the code
records the defined fields as the typed input followed by the textarea,
while the claim reading records textarea, untyped input, typed input in
document order. -/
theorem serializeForm_differs_from_claim :
    serializeForm frag3 ≠ claimSerializeForm frag3 ∧
    (serializeForm frag3).1 = ["a", "t"] ∧
    (claimSerializeForm frag3).1 = ["t", "q", "a"] :=
  ⟨by decide, by decide, by decide⟩

/-- Claim C3, amended: form construction records, first, the input and
button descendants carrying BOTH a name and a type attribute, in document
order (submit-typed ones as buttons with the value attribute or an empty
default; radio/checkbox ones as defined fields whose value is recorded
only when both a checked and a value attribute are present; the rest as
defined fields whose value is recorded only when a value attribute is
present), then every named select (one field value per selected option
carrying a value attribute), then every named textarea (a defined field
with its text content). Named inputs and buttons without a type attribute
are skipped, and selects and textareas follow all input/button entries
instead of being interleaved in document order. -/
theorem serializeForm_characterization (sel : Elem) :
    serializeForm sel = amendedSerializeForm sel := by
  unfold serializeForm amendedSerializeForm
  dsimp only
  rw [foldl_triple inputStep ibDefined ibFields ibButtons inputStep_eq,
      foldl_triple selectStep selDefined selFields (fun _ => []) selectStep_eq,
      foldl_triple textareaStep taDefined taFields (fun _ => []) textareaStep_eq]
  simp

/-! ## History chain lemmas (claims C7) -/

/-- Any successful navigation pushes the old current state onto history. -/
theorem navSucc_commit (tr : Transport) (b b2 : Browser σ) (h : NavSucc tr b b2) :
    b2.history = b.state :: b.history := by
  obtain ⟨hdr, req, tra, hh⟩ := h
  unfold httpRequest at hh
  rcases hde : dispatchEvent { b with headers := hdr } EventType.preRequestEvent
      (EventArgs.req req) with ⟨bow1, err⟩
  rw [hde] at hh
  have hbow1s : bow1.state = b.state := by
    have h1 : (dispatchEvent { b with headers := hdr } EventType.preRequestEvent
        (EventArgs.req req)).1.state = b.state := rfl
    rw [hde] at h1
    exact h1
  have hbow1h : bow1.history = b.history := by
    have h1 : (dispatchEvent { b with headers := hdr } EventType.preRequestEvent
        (EventArgs.req req)).1.history = b.history := rfl
    rw [hde] at h1
    exact h1
  cases err with
  | some e => simp at hh
  | none =>
    cases hf : tr.fetch req with
    | none => rw [hf] at hh; simp at hh
    | some resp =>
      rw [hf] at hh
      dsimp only at hh
      cases hp : tr.parse resp with
      | none => rw [hp] at hh; simp at hh
      | some dom =>
        rw [hp] at hh
        dsimp only at hh
        rcases hpost : dispatchEvent
            { bow1 with
                history := bow1.state :: bow1.history,
                state := newHistoryState req resp dom }
            EventType.postRequestEvent (EventArgs.resp resp) with ⟨bow3, postErr⟩
        rw [hpost] at hh
        have hb3 : bow3 = b2 := congrArg (fun t => t.1) hh
        have hh3 : bow3.history = bow1.state :: bow1.history := by
          have h1 : (dispatchEvent
              { bow1 with
                  history := bow1.state :: bow1.history,
                  state := newHistoryState req resp dom }
              EventType.postRequestEvent (EventArgs.resp resp)).1.history
              = bow1.state :: bow1.history := rfl
          rw [hpost] at h1
          exact h1
        rw [← hb3, hh3, hbow1s, hbow1h]

/-- The expected history chain has the expected length. -/
theorem histList_length (bs : Nat → Browser σ) (i : Nat) :
    (histList bs i).length = i := by
  simp [histList]

/-- Extending the chain by one navigation prepends the last state. -/
theorem histList_succ (bs : Nat → Browser σ) (i : Nat) :
    histList bs (i + 1) = (bs i).state :: histList bs i := by
  simp [histList, List.range_succ]

/-- After a chain of successful navigations from an empty history, the
history holds exactly the earlier states, most recent first. -/
theorem chain_history (tr : Transport) (bs : Nat → Browser σ) (N : Nat)
    (h0 : (bs 0).history = [])
    (hnav : ∀ i, i < N → NavSucc tr (bs i) (bs (i + 1))) :
    ∀ i, i ≤ N → (bs i).history = histList bs i := by
  intro i
  induction i with
  | zero => intro _; simpa [histList] using h0
  | succ n ih =>
    intro hle
    have hh := navSucc_commit tr (bs n) (bs (n + 1)) (hnav n (by omega))
    rw [hh, ih (by omega), histList_succ]

/-- `Back` on a stack of depth at least two pops the top into the current
state and reports true. -/
theorem back_step (bow : Browser σ) (s : PageState) (rest : List PageState)
    (h : bow.history = s :: rest) (hlen : 0 < rest.length) :
    browserBack bow = ({ bow with state := s, history := rest }, true) := by
  unfold browserBack
  rw [h]
  rw [if_pos (by simp; omega)]

/-- `Back` on a stack of depth at most one reports false and changes
nothing. -/
theorem back_stop (bow : Browser σ) (h : bow.history.length ≤ 1) :
    browserBack bow = (bow, false) := by
  unfold browserBack
  rw [if_neg (by omega)]

/-- The page title depends only on the current state. -/
theorem title_congr (b b2 : Browser σ) (h : b.state = b2.state) :
    browserTitle b = browserTitle b2 := by
  simp only [browserTitle, browserFind, browserDom, h]

/-- The page body depends only on the current state. -/
theorem body_congr (b b2 : Browser σ) (h : b.state = b2.state) :
    browserBody b = browserBody b2 := by
  simp only [browserBody, browserFind, browserDom, h]

/-- Claim C7 (confirmed): from a fresh session, after N consecutive
successful navigations, each of the first N-1 Back calls reports true and
restores the immediately prior state (hence its Title and Body), and the
Nth call reports false leaving the session unchanged. -/
theorem back_restores_prior_states (tr : Transport) (bs : Nat → Browser σ) (N : Nat)
    (hN : 1 ≤ N) (h0 : (bs 0).history = [])
    (hnav : ∀ i, i < N → NavSucc tr (bs i) (bs (i + 1))) :
    (∀ k, 1 ≤ k → k ≤ N - 1 →
      (browserBack (backIter (bs N) (k - 1))).2 = true ∧
      (backIter (bs N) k).state = (bs (N - k)).state ∧
      browserTitle (backIter (bs N) k) = browserTitle (bs (N - k)) ∧
      browserBody (backIter (bs N) k) = browserBody (bs (N - k))) ∧
    browserBack (backIter (bs N) (N - 1)) = (backIter (bs N) (N - 1), false) := by
  have key : ∀ k, k ≤ N - 1 →
      (backIter (bs N) k).state = (bs (N - k)).state ∧
      (backIter (bs N) k).history = histList bs (N - k) := by
    intro k
    induction k with
    | zero =>
      intro _
      refine ⟨by simp [backIter], ?_⟩
      simpa [backIter] using chain_history tr bs N h0 hnav N le_rfl
    | succ n ih =>
      intro hle
      obtain ⟨ihs, ihh⟩ := ih (by omega)
      have h2 : N - n = (N - n - 1) + 1 := by omega
      have hsucc : histList bs (N - n) = (bs (N - n - 1)).state :: histList bs (N - n - 1) := by
        conv_lhs => rw [h2]
        rw [histList_succ]
      have hstep := back_step (backIter (bs N) n) ((bs (N - n - 1)).state)
        (histList bs (N - n - 1)) (by rw [ihh, hsucc])
        (by rw [histList_length]; omega)
      have h3 : N - (n + 1) = N - n - 1 := by omega
      constructor
      · show ((browserBack (backIter (bs N) n)).1).state = _
        rw [hstep, h3]
      · show ((browserBack (backIter (bs N) n)).1).history = _
        rw [hstep, h3]
  constructor
  · intro k hk1 hk2
    obtain ⟨ks, kh⟩ := key (k - 1) (by omega)
    have h2 : N - (k - 1) = (N - k) + 1 := by omega
    have hsucc : histList bs (N - (k - 1)) = (bs (N - k)).state :: histList bs (N - k) := by
      rw [h2, histList_succ]
    have hstep := back_step (backIter (bs N) (k - 1)) ((bs (N - k)).state)
      (histList bs (N - k)) (by rw [kh, hsucc]) (by rw [histList_length]; omega)
    have hit : backIter (bs N) k = (browserBack (backIter (bs N) (k - 1))).1 := by
      have hk : k = (k - 1) + 1 := by omega
      rw [hk]
      rfl
    refine ⟨by rw [hstep], ?_, ?_, ?_⟩
    · rw [hit, hstep]
    · refine title_congr _ _ ?_
      rw [hit, hstep]
    · refine body_congr _ _ ?_
      rw [hit, hstep]
  · obtain ⟨ks, kh⟩ := key (N - 1) le_rfl
    have h1 : N - (N - 1) = 1 := by omega
    refine back_stop (backIter (bs N) (N - 1)) ?_
    rw [kh, histList_length]
    omega

/-- Witness for claim C7 on a concrete two-navigation session: the first
Back reports true and restores the first page state; the second Back
reports false and changes nothing. -/
theorem back_restores_prior_states_witness :
    (browserBack (backIter (wbs 2) 0)).2 = true ∧
    (backIter (wbs 2) 1).state = (wbs 1).state ∧
    browserTitle (backIter (wbs 2) 1) = browserTitle (wbs 1) ∧
    browserBody (backIter (wbs 2) 1) = browserBody (wbs 1) ∧
    browserBack (backIter (wbs 2) 1) = (backIter (wbs 2) 1, false) := by
  have hnav : ∀ i, i < 2 → NavSucc tr0 (wbs i) (wbs (i + 1)) := by
    intro i hi
    interval_cases i
    · exact ⟨(buildRequest (wbs 0) "GET" u0 none).1.headers,
        (buildRequest (wbs 0) "GET" u0 none).2, _, rfl⟩
    · exact ⟨(buildRequest (wbs 1) "GET" u0 none).1.headers,
        (buildRequest (wbs 1) "GET" u0 none).2, _, rfl⟩
  have h := back_restores_prior_states tr0 wbs 2 (by omega) rfl hnav
  obtain ⟨h1, h2⟩ := h
  have h3 := h1 1 le_rfl (by omega)
  exact ⟨h3.1, h3.2.1, h3.2.2.1, h3.2.2.2, h2⟩

/-! ## Header jar lemmas (claim C8) -/

/-- Header counting distributes over appending. -/
theorem headerCount_append (h1 h2 : Header) (n : String) :
    headerCount (h1 ++ h2) n = headerCount h1 n + headerCount h2 n := by
  simp [headerCount, List.filter_append]

/-- Counting a name in a one-entry jar. -/
theorem headerCount_single (n v m : String) :
    headerCount [(n, v)] m = if (n == m) = true then 1 else 0 := by
  by_cases h : (n == m) = true <;> simp [headerCount, List.filter, h]

/-- The Referer entry name differs from the User-Agent entry name. -/
theorem beq_referer_ua : (("Referer" : String) == "User-Agent") = false := by decide

/-- The Authorization entry name differs from the User-Agent entry name. -/
theorem beq_auth_ua : (("Authorization" : String) == "User-Agent") = false := by decide

/-- The navigation pipeline itself never touches the header jar: the jar
is only written by request construction. -/
theorem httpRequest_headers (tr : Transport) (bow : Browser σ) (req : Request) :
    (httpRequest tr bow req).1.headers = bow.headers := by
  unfold httpRequest
  rcases hde : dispatchEvent bow EventType.preRequestEvent (EventArgs.req req)
    with ⟨bow1, err⟩
  have hb1 : bow1.headers = bow.headers := by
    have h1 : (dispatchEvent bow EventType.preRequestEvent (EventArgs.req req)).1.headers
        = bow.headers := rfl
    rw [hde] at h1
    exact h1
  cases err with
  | some e => exact hb1
  | none =>
    cases hf : tr.fetch req with
    | none => exact hb1
    | some resp =>
      dsimp only
      cases hp : tr.parse resp with
      | none => exact hb1
      | some dom =>
        dsimp only
        rcases hpost : dispatchEvent
            { bow1 with
                history := bow1.state :: bow1.history,
                state := newHistoryState req resp dom }
            EventType.postRequestEvent (EventArgs.resp resp) with ⟨bow3, postErr⟩
        have h3 : bow3.headers = bow1.headers := by
          have h1 : (dispatchEvent
              { bow1 with
                  history := bow1.state :: bow1.history,
                  state := newHistoryState req resp dom }
              EventType.postRequestEvent (EventArgs.resp resp)).1.headers
              = bow1.headers := rfl
          rw [hpost] at h1
          exact h1
        exact h3.trans hb1

/-- Request construction adds exactly one User-Agent entry to the jar
(the Referer, Authorization and Content-Type entries carry other names). -/
theorem buildRequest_ua_count (bow : Browser σ) (method : String) (u : Url)
    (ref : Option Url) :
    headerCount (buildRequest bow method u ref).1.headers "User-Agent"
      = headerCount bow.headers "User-Agent" + 1 := by
  unfold buildRequest headerAdd
  rcases ref with _ | r
  · by_cases ha : bow.auth.username != ""
    · simp [ha, headerCount_append, headerCount_single, beq_referer_ua, beq_auth_ua,
        headerCount, List.filter]
    · simp [ha, headerCount_append, headerCount_single, beq_referer_ua, beq_auth_ua,
        headerCount, List.filter]
  · by_cases hsr : bow.attributes.sendReferer <;>
      by_cases ha : bow.auth.username != "" <;>
        simp [hsr, ha, headerCount_append, headerCount_single, beq_referer_ua, beq_auth_ua,
          headerCount, List.filter]

/-- Claim C8 (confirmed): the request built by `buildRequest` carries the
session header jar itself, and the User-Agent entry added for each
request lands in the session jar; after k navigations the jar holds k
accumulated User-Agent entries, all carried into the next request, so a
navigation changes session fields beyond the current state and history. -/
theorem buildRequest_aliases_headers (tr : Transport) (bow : Browser σ) (u : Url)
    (k : Nat) :
    (∀ method ref,
      (buildRequest bow method u ref).2.header = (buildRequest bow method u ref).1.headers)
    ∧ headerCount (navKIter tr u bow k).headers "User-Agent"
        = headerCount bow.headers "User-Agent" + k
    ∧ headerCount ((buildRequest (navKIter tr u bow k) "GET" u none).2.header) "User-Agent"
        = headerCount bow.headers "User-Agent" + (k + 1) := by
  have hacc : ∀ j, headerCount (navKIter tr u bow j).headers "User-Agent"
      = headerCount bow.headers "User-Agent" + j := by
    intro j
    induction j with
    | zero => simp [navKIter]
    | succ n ih =>
      show headerCount ((httpGET tr (navKIter tr u bow n) u none).1).headers _ = _
      unfold httpGET
      rw [httpRequest_headers, buildRequest_ua_count, ih]
      omega
  refine ⟨fun method ref => rfl, hacc k, ?_⟩
  have h2 : (buildRequest (navKIter tr u bow k) "GET" u none).2.header
      = (buildRequest (navKIter tr u bow k) "GET" u none).1.headers := rfl
  rw [h2, buildRequest_ua_count, hacc k]
  omega

/-! ## Forms accessor (claim C9) -/

/-- Claim C9 (confirmed): on a page with n forms, the Forms accessor
returns a slice of length 2n whose first n entries are nil, because the
slice is allocated with length n and the forms are appended after that
nil prefix; only with n = 0 is the result empty. -/
theorem forms_nil_prefix_doubled (bow : Browser σ) (n : Nat)
    (hn : n = (browserFind bow (fun e => e.tag == "form")).length) :
    (1 ≤ n →
      (browserForms bow).length = 2 * n ∧
      (browserForms bow).take n = List.replicate n none ∧
      browserForms bow ≠ []) ∧
    (n = 0 → browserForms bow = []) := by
  constructor
  · intro h1
    unfold browserForms
    rw [if_neg (by omega)]
    refine ⟨?_, ?_, ?_⟩
    · simp [← hn]
      omega
    · rw [hn]
      have := List.take_left (List.replicate (browserFind bow (fun e => e.tag == "form")).length
        (none : Option FormData))
        ((browserFind bow (fun e => e.tag == "form")).map (fun s => some (newForm bow s)))
      rw [List.length_replicate] at this
      exact this
    · intro h
      have := congrArg List.length h
      simp [← hn] at this
      omega
  · intro h0
    unfold browserForms
    rw [if_pos (by omega)]

/-- Witness for claim C9 on a page with exactly one form: the accessor
returns a two-entry slice whose first entry is nil. -/
theorem forms_nil_prefix_doubled_witness :
    (browserForms demoFormsBow).length = 2 * 1 ∧
    (browserForms demoFormsBow).take 1 = List.replicate 1 none ∧
    browserForms demoFormsBow ≠ [] :=
  (forms_nil_prefix_doubled demoFormsBow 1 rfl).1 le_rfl

/-! ## Click (claim C10) -/

/-- Claim C10 (confirmed): when the selector matches an anchor with a
resolvable href, the click-event dispatch result is discarded: even when
the click handler returns an error, the navigation proceeds as the GET
issued from the post-dispatch session, and the click error appears
nowhere in the result. -/
theorem click_error_discarded (tr : Transport) (bow : Browser σ) (p : Elem → Bool)
    (href : Url) (e : SurfError)
    (hsel : ¬(browserFind bow p).length = 0)
    (hanchor : ((browserFind bow p).any (fun el => el.tag == "a")) = true)
    (hhref : attrToResolvedUrl bow "href" (browserFind bow p) = .ok href)
    (herr : (dispatchEvent bow .clickEvent (.url href)).2 = some e) :
    browserClick tr bow p
      = ((httpGET tr (dispatchEvent bow .clickEvent (.url href)).1 href
            (some (browserUrl bow))).1,
         (httpGET tr (dispatchEvent bow .clickEvent (.url href)).1 href
            (some (browserUrl bow))).2.1,
         .dispatched .clickEvent ::
           (httpGET tr (dispatchEvent bow .clickEvent (.url href)).1 href
             (some (browserUrl bow))).2.2) := by
  unfold browserClick
  rw [if_neg hsel, if_neg (by simp [hanchor]), hhref]

/-- Witness for claim C10: a concrete session whose click handler always
fails; the click still issues the GET and the navigation succeeds. -/
theorem click_error_discarded_witness :
    browserClick tr0 clickBow clickSel
      = ((httpGET tr0 (dispatchEvent clickBow .clickEvent
            (.url { path := "http://h/page2", rawQuery := "" })).1
            { path := "http://h/page2", rawQuery := "" } (some (browserUrl clickBow))).1,
         (httpGET tr0 (dispatchEvent clickBow .clickEvent
            (.url { path := "http://h/page2", rawQuery := "" })).1
            { path := "http://h/page2", rawQuery := "" } (some (browserUrl clickBow))).2.1,
         .dispatched .clickEvent ::
           (httpGET tr0 (dispatchEvent clickBow .clickEvent
             (.url { path := "http://h/page2", rawQuery := "" })).1
             { path := "http://h/page2", rawQuery := "" } (some (browserUrl clickBow))).2.2) ∧
    (browserClick tr0 clickBow clickSel).2.1 = none :=
  ⟨click_error_discarded tr0 clickBow clickSel
      { path := "http://h/page2", rawQuery := "" } (SurfError.handler 7)
      (by decide) (by decide) rfl rfl,
   by decide⟩

end Surf
